import Mathlib

/-!
# get-jadwal: a shallow embedding of `main.go`

The service keeps two MySQL tables, `users` and `schedules`, and serves five
HTTP handlers.  The embedding follows `main.go` function by function:

* the two tables and their AUTO_INCREMENT counters are a value of type `DB`;
* every repository function (`CreateUser`, `GetUserDetails`, ...) is a pure
  function on `DB`; a Go result `(T, error)` is a pair `T × Option SqlError`;
* driver failures are explicit: a `Faults` record says which store calls of the
  current request return an unexpected driver error;
* `go DeleteSchedule(..)` and `go UpdateSchedule(..)` are not run by the handler:
  the handler returns them as dispatched `Job`s, which run later (`runJob`);
* each handler also returns the list of repository calls it made (`trace`).

Outside `main.go`: `mail.ParseAddress` is a parameter `parseAddress` (true when
the Go call returns a nil error); the JSON body is given by its decoded string
fields; SQL string comparison is exact equality; column widths are not modelled
(a rejected write is a driver failure, see `Faults`).
-/

namespace GetJadwal

/-! ## Data model -/

/-- Go `type User struct`. -/
structure User where
  ID : Int
  Email : String
deriving DecidableEq, Repr

/-- Go `type Schedule struct`. -/
structure Schedule where
  ID : Int
  UserID : Int
  Title : String
  Day : String
deriving DecidableEq, Repr

/-- Zero value `User{}`. -/
def User.zero : User := ⟨0, ""⟩

/-- Zero value `Schedule{}`. -/
def Schedule.zero : Schedule := ⟨0, 0, "", ""⟩

/-- Tables `users` and `schedules` with the next AUTO_INCREMENT value of each. -/
structure DB where
  users : List User
  schedules : List Schedule
  nextUserID : Int
  nextScheduleID : Int
deriving DecidableEq, Repr

/-- State right after the two `CREATE TABLE IF NOT EXISTS` statements on a fresh database. -/
def DB.empty : DB := ⟨[], [], 1, 1⟩

/-- Errors of `database/sql`: the `sql.ErrNoRows` signal, or any other failure. -/
inductive SqlError where
  | ErrNoRows
  | Failure
deriving DecidableEq, Repr

/-- Which store calls of one request fail with an unexpected driver error. -/
structure Faults where
  /-- The `QueryRow(..).Scan` on table `users` fails. -/
  selectUser : Bool
  /-- The `QueryRow(..).Scan` on table `schedules` fails. -/
  selectSchedule : Bool
  /-- The `db.Prepare` of the SELECT in `CreateUser` fails. -/
  prepareSelect : Bool
  /-- The `db.Prepare` of an INSERT fails. -/
  prepareInsert : Bool
  /-- The `stmt.Exec` of an INSERT fails. -/
  execInsert : Bool
  /-- The call `res.LastInsertId` fails. -/
  lastInsertId : Bool
  /-- The `db.Query` of a multi-row SELECT fails. -/
  queryRows : Bool
deriving DecidableEq, Repr

/-- No store call fails. -/
def noFaults : Faults := ⟨false, false, false, false, false, false, false⟩

/-! ## Repository functions -/

/-- Rows of `SELECT id, email FROM users WHERE email = ?`; `QueryRow` keeps the first. -/
def selectUserByEmail (db : DB) (email : String) : Option User :=
  db.users.find? (fun u => decide (u.Email = email))

/-- Row of `SELECT id, title, day, user_id FROM schedules WHERE id = ?`. -/
def selectScheduleByID (db : DB) (id : Int) : Option Schedule :=
  db.schedules.find? (fun s => decide (s.ID = id))

/-- Go `GetScheduleDetails`: on any error the result is `Schedule{}` with the error. -/
def GetScheduleDetails (db : DB) (flt : Faults) (id : Int) : Schedule × Option SqlError :=
  if flt.selectSchedule then (Schedule.zero, some SqlError.Failure)
  else
    match selectScheduleByID db id with
    | some s => (s, none)
    | none => (Schedule.zero, some SqlError.ErrNoRows)

/-- Go `UpdateSchedule`: `UPDATE schedules SET title = ?, day = ? WHERE id = ?`. -/
def UpdateSchedule (db : DB) (fail : Bool) (id : Int) (title day : String) :
    DB × Option SqlError :=
  if fail then (db, some SqlError.Failure)
  else
    ({ db with schedules := db.schedules.map (fun s =>
        if s.ID = id then { s with Title := title, Day := day } else s) }, none)

/-- Go `GetScheduleOnDay`: a failed query gives the empty list. -/
def GetScheduleOnDay (db : DB) (flt : Faults) (id : Int) (day : String) : List Schedule :=
  if flt.queryRows then []
  else db.schedules.filter (fun s => decide (s.UserID = id) && decide (s.Day = day))

/-- Go `CreateUser`: find the user by email or insert it. -/
def CreateUser (db : DB) (flt : Faults) (email : String) : (User × Option SqlError) × DB :=
  if flt.prepareSelect then ((User.zero, some SqlError.Failure), db)
  else if flt.selectUser then ((User.zero, some SqlError.Failure), db)
  else
    match selectUserByEmail db email with
    | some u => ((u, none), db)
    | none =>
      if flt.prepareInsert then ((User.zero, some SqlError.Failure), db)
      else if flt.execInsert then ((User.zero, some SqlError.Failure), db)
      else
        let db1 : DB := { db with
          users := db.users ++ [⟨db.nextUserID, email⟩],
          nextUserID := db.nextUserID + 1 }
        if flt.lastInsertId then ((User.zero, some SqlError.Failure), db1)
        else ((⟨db.nextUserID, email⟩, none), db1)

/-- Go `CreateSchedule`: insert a row; on any error the result is `Schedule{}`. -/
def CreateSchedule (db : DB) (flt : Faults) (userID : Int) (title day : String) :
    (Schedule × Option SqlError) × DB :=
  if flt.prepareInsert then ((Schedule.zero, some SqlError.Failure), db)
  else if flt.execInsert then ((Schedule.zero, some SqlError.Failure), db)
  else
    let db1 : DB := { db with
      schedules := db.schedules ++ [⟨db.nextScheduleID, userID, title, day⟩],
      nextScheduleID := db.nextScheduleID + 1 }
    if flt.lastInsertId then ((Schedule.zero, some SqlError.Failure), db1)
    else ((⟨db.nextScheduleID, userID, title, day⟩, none), db1)

/-- Go `GetUserDetails`: on any error the result is `User{}` with the error. -/
def GetUserDetails (db : DB) (flt : Faults) (email : String) : User × Option SqlError :=
  if flt.selectUser then (User.zero, some SqlError.Failure)
  else
    match selectUserByEmail db email with
    | some u => (u, none)
    | none => (User.zero, some SqlError.ErrNoRows)

/-- A `fiber.Map` whose values are integers: keys with their values. -/
abbrev CountMap := List (String × Int)

/-- Go map assignment `m[k] = v`. -/
def CountMap.set : CountMap → String → Int → CountMap
  | [], k, v => [(k, v)]
  | (k', v') :: m, k, v =>
    if k' = k then (k, v) :: m else (k', v') :: CountMap.set m k v

/-- Rows of `SELECT day, COUNT(*) FROM schedules WHERE user_id = ? GROUP BY day`. -/
def selectDayCounts (db : DB) (userId : Int) : List (String × Int) :=
  let days := (db.schedules.filter (fun s => decide (s.UserID = userId))).map (fun s => s.Day)
  days.dedup.map (fun d => (d, (days.count d : Int)))

/-- Body of the `for rows.Next()` loop of `GetTotalSchedulesPerDays`: the `switch day`. -/
def overlayDayCount (schedulesTotal : CountMap) (row : String × Int) : CountMap :=
  if row.1 = "monday" then schedulesTotal.set "monday" row.2
  else if row.1 = "tuesday" then schedulesTotal.set "tuesday" row.2
  else if row.1 = "wednesday" then schedulesTotal.set "wednesday" row.2
  else if row.1 = "thursday" then schedulesTotal.set "thursday" row.2
  else if row.1 = "friday" then schedulesTotal.set "friday" row.2
  else schedulesTotal

/-- Go `GetTotalSchedulesPerDays`. -/
def GetTotalSchedulesPerDays (db : DB) (flt : Faults) (userId : Int) : CountMap :=
  let schedulesTotal : CountMap :=
    [("monday", 0), ("tuesday", 0), ("wednesday", 0), ("thursday", 0), ("friday", 0)]
  if flt.queryRows then schedulesTotal
  else (selectDayCounts db userId).foldl overlayDayCount schedulesTotal

/-- Go `DeleteSchedule`: `DELETE FROM schedules WHERE id = ?`, the error is dropped. -/
def DeleteSchedule (db : DB) (fail : Bool) (id : Int) : DB :=
  if fail then db
  else { db with schedules := db.schedules.filter (fun s => !decide (s.ID = id)) }

/-- Go `var validDays`. -/
def validDays : List (String × Bool) :=
  [("monday", true), ("tuesday", true), ("wednesday", true), ("thursday", true),
   ("friday", true)]

/-- The `ok` of `_, ok := validDays[day]`. -/
def validDay (day : String) : Bool := (validDays.lookup day).isSome

/-! ## Requests and responses -/

/-- An HTTP request: the query parameters and the decoded string fields of the body.
A body that `BodyParser` cannot decode has no fields. -/
structure Request where
  query : List (String × String)
  body : List (String × String)
deriving DecidableEq, Repr

/-- Fiber `c.Query(key)`: the parameter, or the empty string. -/
def Request.Query (req : Request) (key : String) : String :=
  (req.query.lookup key).getD ""

/-- Field of the struct filled by `c.BodyParser`: the decoded value, or the empty string. -/
def Request.bodyField (req : Request) (key : String) : String :=
  (req.body.lookup key).getD ""

/-- Value of a non-empty string of decimal digits. -/
def digitsValue : List Char → Option Nat
  | [] => none
  | cs => if cs.all Char.isDigit then some (cs.foldl (fun n c => 10 * n + (c.toNat - 48)) 0)
          else none

/-- Go `strconv.Atoi` on a 64-bit platform: optional sign, decimal digits, in range. -/
def Atoi (s : String) : Option Int :=
  let signed : Option Int :=
    match s.toList with
    | '+' :: cs => (digitsValue cs).map (fun n => (n : Int))
    | '-' :: cs => (digitsValue cs).map (fun n => -(n : Int))
    | cs => (digitsValue cs).map (fun n => (n : Int))
  signed.bind (fun v => if -(2 : Int) ^ 63 ≤ v ∧ v < (2 : Int) ^ 63 then some v else none)

/-- Fiber `c.QueryInt(key)`: `Atoi` of the parameter, 0 when it does not parse. -/
def Request.QueryInt (req : Request) (key : String) : Int :=
  (Atoi (req.Query key)).getD 0

/-- The `data` member of the JSON envelope. -/
inductive Data where
  | user (u : User)
  | schedule (s : Schedule)
  | schedules (l : List Schedule)
  | counts (m : CountMap)
  | empty
deriving DecidableEq, Repr

/-- HTTP status code with the JSON envelope `status`, `message`, `data`. -/
structure Response where
  code : Nat
  status : String
  message : String
  data : Option Data
deriving DecidableEq, Repr

/-- A repository call made by a handler before it answers. -/
inductive StoreOp where
  | CreateUser (email : String)
  | GetUserDetails (email : String)
  | GetScheduleDetails (id : Int)
  | GetScheduleOnDay (userID : Int) (day : String)
  | GetTotalSchedulesPerDays (userID : Int)
  | CreateSchedule (userID : Int) (title day : String)
deriving DecidableEq, Repr

/-- A repository call started with `go`: it runs after the handler has answered. -/
inductive Job where
  | DeleteSchedule (id : Int)
  | UpdateSchedule (id : Int) (title day : String)
deriving DecidableEq, Repr

/-- What one handler run produces: the response, the store after the handler's own
calls, the background jobs it started and the repository calls it made, in order. -/
structure Outcome where
  resp : Response
  db : DB
  jobs : List Job
  trace : List StoreOp
deriving DecidableEq, Repr

/-- Reply `c.Status(400)` with status text "Bad Request". -/
def badRequest (message : String) : Response := ⟨400, "Bad Request", message, none⟩

/-- Reply `c.Status(404)` with status text "Not Found". -/
def notFound (message : String) : Response := ⟨404, "Not Found", message, none⟩

/-- Reply `c.Status(500)`. -/
def internalError : Response := ⟨500, "Internal Server Error", "Something went wrong", none⟩

/-- Reply `c.Status(fiber.StatusForbidden)`. -/
def forbidden : Response := ⟨403, "Forbidden", "Access denied!", none⟩

/-- Reply with status text and message "Success". -/
def success (code : Nat) (data : Data) : Response := ⟨code, "Success", "Success", some data⟩

/-- Go `fmt.Sprintf("Schedule with ID %d Not Found", id)`. -/
def scheduleNotFoundMessage (id : Int) : String :=
  "Schedule with ID " ++ toString id ++ " Not Found"

/-! ## The five handlers of `main`

`parseAddress email` is true when `mail.ParseAddress(email)` returns no error. -/

/-- Handler `s.Post("/checkin", ..)`. -/
def handleCheckin (parseAddress : String → Bool) (db : DB) (flt : Faults) (req : Request) :
    Outcome :=
  let email := req.bodyField "email"
  if email = "" then ⟨badRequest "Email is required", db, [], []⟩
  else if !parseAddress email then ⟨badRequest "Invalid email", db, [], []⟩
  else
    let r := CreateUser db flt email
    ⟨success 200 (Data.user r.1.1), r.2, [], [StoreOp.CreateUser email]⟩

/-- Handler `s.Get("/schedule", ..)`. -/
def handleGetSchedule (parseAddress : String → Bool) (db : DB) (flt : Faults) (req : Request) :
    Outcome :=
  let email := req.Query "email"
  if email = "" then ⟨badRequest "Email is required", db, [], []⟩
  else if !parseAddress email then ⟨badRequest "Invalid email", db, [], []⟩
  else
    match GetUserDetails db flt email with
    | (_, some SqlError.ErrNoRows) =>
      ⟨notFound "Email is not found", db, [], [StoreOp.GetUserDetails email]⟩
    | (_, some SqlError.Failure) => ⟨internalError, db, [], [StoreOp.GetUserDetails email]⟩
    | (user, none) =>
      let day := req.Query "day"
      if day ≠ "" then
        if !validDay day then
          ⟨badRequest "Day is invalid", db, [], [StoreOp.GetUserDetails email]⟩
        else
          let scheduleOnDay := GetScheduleOnDay db flt user.ID day
          ⟨success 200 (Data.schedules scheduleOnDay), db, [],
            [StoreOp.GetUserDetails email, StoreOp.GetScheduleOnDay user.ID day]⟩
      else
        let schedules := GetTotalSchedulesPerDays db flt user.ID
        ⟨success 200 (Data.counts schedules), db, [],
          [StoreOp.GetUserDetails email, StoreOp.GetTotalSchedulesPerDays user.ID]⟩

/-- Handler `s.Post("/schedule", ..)`. -/
def handlePostSchedule (parseAddress : String → Bool) (db : DB) (flt : Faults)
    (req : Request) : Outcome :=
  let email := req.Query "email"
  if email = "" then ⟨badRequest "Email is required", db, [], []⟩
  else if !parseAddress email then ⟨badRequest "Invalid email", db, [], []⟩
  else
    let title := req.bodyField "title"
    let day := req.bodyField "day"
    if title = "" then ⟨badRequest "Title is required", db, [], []⟩
    else if day = "" then ⟨badRequest "Day is required", db, [], []⟩
    else if !validDay day then ⟨badRequest "Day is invalid", db, [], []⟩
    else
      match GetUserDetails db flt email with
      | (_, some SqlError.ErrNoRows) =>
        ⟨notFound "Email is not found", db, [], [StoreOp.GetUserDetails email]⟩
      | (_, some SqlError.Failure) => ⟨internalError, db, [], [StoreOp.GetUserDetails email]⟩
      | (user, none) =>
        let r := CreateSchedule db flt user.ID title day
        ⟨success 201 (Data.schedule r.1.1), r.2, [],
          [StoreOp.GetUserDetails email, StoreOp.CreateSchedule user.ID title day]⟩

/-- Handler `s.Delete("/schedule", ..)`. -/
def handleDeleteSchedule (parseAddress : String → Bool) (db : DB) (flt : Faults)
    (req : Request) : Outcome :=
  let email := req.Query "email"
  if email = "" then ⟨badRequest "Email is required", db, [], []⟩
  else if !parseAddress email then ⟨badRequest "Invalid email", db, [], []⟩
  else
    let id := req.QueryInt "id"
    match GetUserDetails db flt email with
    | (_, some SqlError.ErrNoRows) =>
      ⟨notFound "Email is not found", db, [], [StoreOp.GetUserDetails email]⟩
    | (_, some SqlError.Failure) => ⟨internalError, db, [], [StoreOp.GetUserDetails email]⟩
    | (user, none) =>
      match GetScheduleDetails db flt id with
      | (_, some _) =>
        ⟨notFound (scheduleNotFoundMessage id), db, [],
          [StoreOp.GetUserDetails email, StoreOp.GetScheduleDetails id]⟩
      | (schedule, none) =>
        if user.ID ≠ schedule.UserID then
          ⟨forbidden, db, [], [StoreOp.GetUserDetails email, StoreOp.GetScheduleDetails id]⟩
        else
          ⟨success 200 Data.empty, db, [Job.DeleteSchedule id],
            [StoreOp.GetUserDetails email, StoreOp.GetScheduleDetails id]⟩

/-- Handler `s.Patch("/schedule", ..)`. -/
def handlePatchSchedule (parseAddress : String → Bool) (db : DB) (flt : Faults)
    (req : Request) : Outcome :=
  let email := req.Query "email"
  if email = "" then ⟨badRequest "Email is required", db, [], []⟩
  else if !parseAddress email then ⟨badRequest "Invalid email", db, [], []⟩
  else
    let id := req.QueryInt "id"
    match GetUserDetails db flt email with
    | (_, some SqlError.ErrNoRows) =>
      ⟨notFound "Email is not found", db, [], [StoreOp.GetUserDetails email]⟩
    | (_, some SqlError.Failure) => ⟨internalError, db, [], [StoreOp.GetUserDetails email]⟩
    | (user, none) =>
      let schedule := (GetScheduleDetails db flt id).1
      if schedule.ID = 0 then
        ⟨notFound (scheduleNotFoundMessage id), db, [],
          [StoreOp.GetUserDetails email, StoreOp.GetScheduleDetails id]⟩
      else if schedule.UserID ≠ user.ID then
        ⟨forbidden, db, [], [StoreOp.GetUserDetails email, StoreOp.GetScheduleDetails id]⟩
      else
        let title := req.bodyField "title"
        if title = "" then
          ⟨badRequest "Title is required", db, [],
            [StoreOp.GetUserDetails email, StoreOp.GetScheduleDetails id]⟩
        else
          let schedule : Schedule := { schedule with Title := title }
          ⟨success 201 (Data.schedule schedule), db,
            [Job.UpdateSchedule schedule.ID schedule.Title schedule.Day],
            [StoreOp.GetUserDetails email, StoreOp.GetScheduleDetails id]⟩

/-! ## The server as a transition system -/

/-- The five routes registered in `main`. -/
inductive Endpoint where
  | postCheckin
  | getSchedule
  | postSchedule
  | deleteSchedule
  | patchSchedule
deriving DecidableEq, Repr

/-- Route a request to its handler. -/
def handle (parseAddress : String → Bool) (ep : Endpoint) (db : DB) (flt : Faults)
    (req : Request) : Outcome :=
  match ep with
  | Endpoint.postCheckin => handleCheckin parseAddress db flt req
  | Endpoint.getSchedule => handleGetSchedule parseAddress db flt req
  | Endpoint.postSchedule => handlePostSchedule parseAddress db flt req
  | Endpoint.deleteSchedule => handleDeleteSchedule parseAddress db flt req
  | Endpoint.patchSchedule => handlePatchSchedule parseAddress db flt req

/-- Run one background job on the store; `fail` says that its `db.Exec` fails. -/
def runJob (db : DB) (fail : Bool) : Job → DB
  | Job.DeleteSchedule id => DeleteSchedule db fail id
  | Job.UpdateSchedule id title day => (UpdateSchedule db fail id title day).1

/-- The store together with the background jobs that have not run yet. -/
structure Server where
  db : DB
  pending : List Job
deriving DecidableEq, Repr

/-- A freshly started server on an empty database. -/
def Server.init : Server := ⟨DB.empty, []⟩

/-- What can happen next: a request is served, or the pending job at a position runs. -/
inductive Event where
  | request (ep : Endpoint) (req : Request) (flt : Faults)
  | background (i : Nat) (fail : Bool)
deriving DecidableEq, Repr

/-- One transition of the server. -/
def Server.step (parseAddress : String → Bool) (s : Server) : Event → Server
  | Event.request ep req flt =>
    let out := handle parseAddress ep s.db flt req
    ⟨out.db, s.pending ++ out.jobs⟩
  | Event.background i fail =>
    match s.pending.get? i with
    | some job => ⟨runJob s.db fail job, s.pending.eraseIdx i⟩
    | none => s

/-- The server after a sequence of events. -/
def Server.run (parseAddress : String → Bool) (s : Server) (events : List Event) : Server :=
  events.foldl (Server.step parseAddress) s

/-- Schema facts of the store (`id INT AUTO_INCREMENT PRIMARY KEY`): the counters are
positive, and primary keys are positive, below the counter, and unique. -/
def DB.WF (db : DB) : Prop :=
  (∀ s ∈ db.schedules, 0 < s.ID ∧ s.ID < db.nextScheduleID) ∧
  (db.schedules.map (fun s => s.ID)).Nodup ∧
  (∀ u ∈ db.users, 0 < u.ID ∧ u.ID < db.nextUserID) ∧
  (db.users.map (fun u => u.ID)).Nodup ∧
  0 < db.nextScheduleID ∧ 0 < db.nextUserID

instance (db : DB) : Decidable db.WF := by
  unfold DB.WF
  infer_instance

/-! ## Auxiliary definitions used in the statements -/

/-- The keys the count map is seeded with. -/
def weekdays : List String := ["monday", "tuesday", "wednesday", "thursday", "friday"]

/-- Days of the schedules of one user, in table order. -/
def userDays (db : DB) (userId : Int) : List String :=
  (db.schedules.filter (fun s => decide (s.UserID = userId))).map (fun s => s.Day)

/-- Fault pattern: the SELECT on `users` fails. -/
def faultSelectUser : Faults := { noFaults with selectUser := true }

/-- Fault pattern: the SELECT on `schedules` fails. -/
def faultSelectSchedule : Faults := { noFaults with selectSchedule := true }

/-- Fault pattern: the `db.Query` of a multi-row SELECT fails. -/
def faultQueryRows : Faults := { noFaults with queryRows := true }

/-- Fault pattern: the `Exec` of an INSERT fails. -/
def faultExecInsert : Faults := { noFaults with execInsert := true }

/-- Invariant of the server: every stored day is whitelisted, ids are below the
counter, rows with equal id have equal day, and every pending update carries the
day of the rows it will write. -/
def Server.Inv (s : Server) : Prop :=
  (∀ row ∈ s.db.schedules, validDay row.Day = true ∧ row.ID < s.db.nextScheduleID) ∧
  (∀ r1 ∈ s.db.schedules, ∀ r2 ∈ s.db.schedules, r1.ID = r2.ID → r1.Day = r2.Day) ∧
  (∀ id t d, Job.UpdateSchedule id t d ∈ s.pending →
    id < s.db.nextScheduleID ∧ ∀ row ∈ s.db.schedules, row.ID = id → row.Day = d)

/-- Rows of the new table all come from rows of the old one, keeping id and day. -/
def DaysKept (old new : List Schedule) : Prop :=
  ∀ row' ∈ new, ∃ row ∈ old, row'.ID = row.ID ∧ row'.Day = row.Day

/-- A run: check-in, a create, a rejected create, an update, its job, a delete. -/
def sampleEvents : List Event :=
  [Event.request Endpoint.postCheckin ⟨[], [("email", "a@b.com")]⟩ noFaults,
   Event.request Endpoint.postSchedule
     ⟨[("email", "a@b.com")], [("title", "Math"), ("day", "monday")]⟩ noFaults,
   Event.request Endpoint.postSchedule
     ⟨[("email", "a@b.com")], [("title", "Rest"), ("day", "sunday")]⟩ noFaults,
   Event.request Endpoint.patchSchedule
     ⟨[("email", "a@b.com"), ("id", "1")], [("title", "Physics")]⟩ noFaults,
   Event.background 0 false,
   Event.request Endpoint.deleteSchedule ⟨[("email", "a@b.com"), ("id", "1")], []⟩ noFaults]

/-- A sample validator standing for `mail.ParseAddress`: the address has an `@`. -/
def sampleParseAddress (s : String) : Bool := decide ('@' ∈ s.toList)

/-- A store with one user and one schedule whose day is outside the whitelist. -/
def dbSunday : DB := ⟨[⟨1, "a@b.com"⟩], [⟨1, 1, "Math", "sunday"⟩], 2, 2⟩

/-- A store with two users; the first owns a Monday and a Friday schedule. -/
def dbSample : DB :=
  ⟨[⟨1, "a@b.com"⟩, ⟨2, "c@d.org"⟩],
   [⟨1, 1, "Math", "monday"⟩, ⟨2, 1, "Art", "friday"⟩, ⟨3, 2, "Gym", "monday"⟩], 3, 4⟩

/-! ## Day counts -/

theorem validDay_iff (day : String) :
    validDay day = true ↔ day = "monday" ∨ day = "tuesday" ∨ day = "wednesday" ∨
      day = "thursday" ∨ day = "friday" := by
  unfold validDay validDays
  by_cases h1 : day = "monday"
  · subst h1; simp [List.lookup]
  by_cases h2 : day = "tuesday"
  · subst h2; simp [List.lookup]
  by_cases h3 : day = "wednesday"
  · subst h3; simp [List.lookup]
  by_cases h4 : day = "thursday"
  · subst h4; simp [List.lookup]
  by_cases h5 : day = "friday"
  · subst h5; simp [List.lookup]
  have e1 : (day == "monday") = false := by simpa using h1
  have e2 : (day == "tuesday") = false := by simpa using h2
  have e3 : (day == "wednesday") = false := by simpa using h3
  have e4 : (day == "thursday") = false := by simpa using h4
  have e5 : (day == "friday") = false := by simpa using h5
  simp [List.lookup, e1, e2, e3, e4, e5, h1, h2, h3, h4, h5]

theorem foldl_overlayDayCount (c : String → Int) (ds : List String) :
    ∀ a1 a2 a3 a4 a5 : Int,
    (ds.map (fun d => (d, c d))).foldl overlayDayCount
      [("monday", a1), ("tuesday", a2), ("wednesday", a3), ("thursday", a4), ("friday", a5)] =
    [("monday", if "monday" ∈ ds then c "monday" else a1),
     ("tuesday", if "tuesday" ∈ ds then c "tuesday" else a2),
     ("wednesday", if "wednesday" ∈ ds then c "wednesday" else a3),
     ("thursday", if "thursday" ∈ ds then c "thursday" else a4),
     ("friday", if "friday" ∈ ds then c "friday" else a5)] := by
  induction ds with
  | nil => intro a1 a2 a3 a4 a5; simp
  | cons d ds ih =>
    intro a1 a2 a3 a4 a5
    simp only [List.map_cons, List.foldl_cons]
    by_cases h1 : d = "monday"
    · subst h1; simp [overlayDayCount, CountMap.set, ih]
    by_cases h2 : d = "tuesday"
    · subst h2; simp [overlayDayCount, CountMap.set, ih]
    by_cases h3 : d = "wednesday"
    · subst h3; simp [overlayDayCount, CountMap.set, ih]
    by_cases h4 : d = "thursday"
    · subst h4; simp [overlayDayCount, CountMap.set, ih]
    by_cases h5 : d = "friday"
    · subst h5; simp [overlayDayCount, CountMap.set, ih]
    simp [overlayDayCount, h1, h2, h3, h4, h5, ih, Ne.symm h1, Ne.symm h2, Ne.symm h3,
      Ne.symm h4, Ne.symm h5]

/-- Closed form of the count map when the query succeeds. -/
theorem GetTotalSchedulesPerDays_eq (db : DB) (flt : Faults) (userId : Int)
    (hq : flt.queryRows = false) :
    GetTotalSchedulesPerDays db flt userId =
      weekdays.map (fun d => (d, ((userDays db userId).count d : Int))) := by
  unfold GetTotalSchedulesPerDays selectDayCounts
  simp only [hq, Bool.false_eq_true, if_false]
  have h := foldl_overlayDayCount (fun d => ((userDays db userId).count d : Int))
    (userDays db userId).dedup 0 0 0 0 0
  unfold userDays at h
  rw [h]
  simp only [weekdays, List.map, userDays, List.mem_dedup]
  have hz : ∀ d : String, ∀ l : List String,
      (if d ∈ l then (l.count d : Int) else 0) = (l.count d : Int) := by
    intro d l
    by_cases hd : d ∈ l
    · simp [hd]
    · simp [hd, List.count_eq_zero_of_not_mem hd]
  simp only [hz]

theorem count_weekdays_sum (l : List String) (h : ∀ d ∈ l, validDay d = true) :
    l.count "monday" + l.count "tuesday" + l.count "wednesday" + l.count "thursday" +
      l.count "friday" = l.length := by
  induction l with
  | nil => simp
  | cons d l ih =>
    have hl := ih (fun x hx => h x (List.mem_cons_of_mem _ hx))
    have hd := (validDay_iff d).1 (h d (List.mem_cons_self _ _))
    rcases hd with hd | hd | hd | hd | hd <;> subst hd <;>
      simp [List.count_cons] <;> omega

/-! ## Lookups -/

theorem GetScheduleDetails_ok {db : DB} {flt : Faults} {id : Int} {s : Schedule}
    (h : GetScheduleDetails db flt id = (s, none)) :
    flt.selectSchedule = false ∧ selectScheduleByID db id = some s := by
  unfold GetScheduleDetails at h
  cases hf : flt.selectSchedule
  · cases hs : selectScheduleByID db id <;> simp_all
  · simp [hf] at h

theorem selectScheduleByID_some {db : DB} {id : Int} {s : Schedule}
    (h : selectScheduleByID db id = some s) : s ∈ db.schedules ∧ s.ID = id := by
  unfold selectScheduleByID at h
  exact ⟨List.mem_of_find?_eq_some h, by simpa using List.find?_some h⟩

theorem selectScheduleByID_zero {db : DB} (hwf : db.WF) : selectScheduleByID db 0 = none := by
  unfold selectScheduleByID
  rw [List.find?_eq_none]
  intro s hs
  have := (hwf.1 s hs).1
  simp only [decide_eq_true_eq]
  omega

theorem selectUserByEmail_some {db : DB} {email : String} {u : User}
    (h : selectUserByEmail db email = some u) : u ∈ db.users ∧ u.Email = email := by
  unfold selectUserByEmail at h
  exact ⟨List.mem_of_find?_eq_some h, by simpa using List.find?_some h⟩

/-- Outcome of `CreateUser` when no store call fails. -/
theorem CreateUser_noFaults (db : DB) (email : String) :
    CreateUser db noFaults email =
      match selectUserByEmail db email with
      | some u => ((u, none), db)
      | none => ((⟨db.nextUserID, email⟩, none),
          { db with users := db.users ++ [⟨db.nextUserID, email⟩],
                    nextUserID := db.nextUserID + 1 }) := by
  unfold CreateUser
  cases h : selectUserByEmail db email <;> simp [noFaults]

theorem eq_of_ID_eq {db : DB} (hwf : db.WF) {x s : Schedule} (hx : x ∈ db.schedules)
    (hs : s ∈ db.schedules) (h : x.ID = s.ID) : x = s :=
  List.inj_on_of_nodup_map hwf.2.1 hx hs h

/-! ## The days in every reachable store -/

theorem CreateUser_schedules (db : DB) (flt : Faults) (email : String) :
    (CreateUser db flt email).2.schedules = db.schedules ∧
    (CreateUser db flt email).2.nextScheduleID = db.nextScheduleID := by
  unfold CreateUser
  repeat' split
  all_goals simp

theorem GetScheduleDetails_mem (db : DB) (flt : Faults) (id : Int)
    (h : (GetScheduleDetails db flt id).1.ID ≠ 0) :
    (GetScheduleDetails db flt id).1 ∈ db.schedules := by
  unfold GetScheduleDetails at h ⊢
  cases hf : flt.selectSchedule
  · cases hs : selectScheduleByID db id with
    | none => simp [hf, hs, Schedule.zero] at h
    | some s => simpa [hf, hs] using (selectScheduleByID_some hs).1
  · simp [hf, Schedule.zero] at h

theorem CreateSchedule_effect (db : DB) (flt : Faults) (userID : Int) (title day : String) :
    (CreateSchedule db flt userID title day).2 = db ∨
    ((CreateSchedule db flt userID title day).2.schedules =
        db.schedules ++ [⟨db.nextScheduleID, userID, title, day⟩] ∧
      (CreateSchedule db flt userID title day).2.nextScheduleID = db.nextScheduleID + 1) := by
  unfold CreateSchedule
  repeat' split
  all_goals simp

/-- What a handler can do to the schedules: nothing, or append one row with a
whitelisted day and the next id; an update it dispatches names a stored row and
carries that row's day. -/
theorem handle_effect (parseAddress : String → Bool) (ep : Endpoint) (db : DB)
    (flt : Faults) (req : Request) :
    (((handle parseAddress ep db flt req).db.schedules = db.schedules ∧
        (handle parseAddress ep db flt req).db.nextScheduleID = db.nextScheduleID) ∨
      (∃ uid title day, validDay day = true ∧
        (handle parseAddress ep db flt req).db.schedules =
          db.schedules ++ [⟨db.nextScheduleID, uid, title, day⟩] ∧
        (handle parseAddress ep db flt req).db.nextScheduleID = db.nextScheduleID + 1 ∧
        (handle parseAddress ep db flt req).jobs = [])) ∧
    (∀ id t d, Job.UpdateSchedule id t d ∈ (handle parseAddress ep db flt req).jobs →
      ∃ s ∈ db.schedules, s.ID = id ∧ s.Day = d) := by
  cases ep
  · have h := CreateUser_schedules db flt (req.bodyField "email")
    simp only [handle, handleCheckin]
    repeat' split
    all_goals simp [h]
  · simp only [handle, handleGetSchedule]
    repeat' split
    all_goals simp
  · simp only [handle, handlePostSchedule]
    by_cases h1 : req.Query "email" = ""
    · simp [h1]
    by_cases h2 : parseAddress (req.Query "email") = true
    swap
    · simp [h1, h2]
    by_cases h3 : req.bodyField "title" = ""
    · simp [h1, h2, h3]
    by_cases h4 : req.bodyField "day" = ""
    · simp [h1, h2, h3, h4]
    by_cases h5 : validDay (req.bodyField "day") = true
    swap
    · simp [h1, h2, h3, h4, h5]
    rcases hU : GetUserDetails db flt (req.Query "email") with ⟨user, _ | _ | _⟩
    · simp only [h1, h2, h3, h4, h5, hU, if_false, Bool.not_true, Bool.false_eq_true,
        List.not_mem_nil, false_implies, implies_true, and_true]
      rcases CreateSchedule_effect db flt user.ID (req.bodyField "title")
        (req.bodyField "day") with h | h
      · left; rw [h]; exact ⟨rfl, rfl⟩
      · right; exact ⟨_, _, _, h5, h.1, h.2⟩
    · simp [h1, h2, h3, h4, h5, hU]
    · simp [h1, h2, h3, h4, h5, hU]
  · simp only [handle, handleDeleteSchedule]
    repeat' split
    all_goals simp
  · have h := GetScheduleDetails_mem db flt (req.QueryInt "id")
    simp only [handle, handlePatchSchedule]
    by_cases h1 : req.Query "email" = ""
    · simp [h1]
    by_cases h2 : parseAddress (req.Query "email") = true
    swap
    · simp [h1, h2]
    rcases hU : GetUserDetails db flt (req.Query "email") with ⟨user, _ | _ | _⟩
    · by_cases h3 : (GetScheduleDetails db flt (req.QueryInt "id")).1.ID = 0
      · simp [h1, h2, hU, h3]
      by_cases h4 : (GetScheduleDetails db flt (req.QueryInt "id")).1.UserID = user.ID
      swap
      · simp [h1, h2, hU, h3, h4]
      by_cases h5 : req.bodyField "title" = ""
      · simp [h1, h2, hU, h3, h4, h5]
      · simp only [h1, h2, hU, h3, h4, h5, if_false, Bool.not_true, Bool.false_eq_true,
          ne_eq, not_true_eq_false, true_and, true_or, List.mem_singleton]
        intro id t d hj
        injection hj with e1 e2 e3
        subst e1 e3
        exact ⟨_, h h3, rfl, rfl⟩
    · simp [h1, h2, hU]
    · simp [h1, h2, hU]

theorem Inv_of_DaysKept {s : Server} (hinv : s.Inv) (db' : DB) (pending' : List Job)
    (hk : DaysKept s.db.schedules db'.schedules)
    (hn : db'.nextScheduleID = s.db.nextScheduleID)
    (hp : ∀ id t d, Job.UpdateSchedule id t d ∈ pending' →
      Job.UpdateSchedule id t d ∈ s.pending ∨ ∃ r ∈ s.db.schedules, r.ID = id ∧ r.Day = d) :
    Server.Inv ⟨db', pending'⟩ ∧
    (∀ row ∈ s.db.schedules, ∀ row' ∈ db'.schedules, row'.ID = row.ID → row'.Day = row.Day) := by
  obtain ⟨ha, hb, hc⟩ := hinv
  refine ⟨⟨?_, ?_, ?_⟩, ?_⟩
  · intro row' hrow'
    obtain ⟨row, hrow, hid, hday⟩ := hk row' hrow'
    have := ha row hrow
    simp only [hn, hid, hday]
    exact this
  · intro r1 h1 r2 h2 heq
    obtain ⟨q1, hq1, hid1, hday1⟩ := hk r1 h1
    obtain ⟨q2, hq2, hid2, hday2⟩ := hk r2 h2
    rw [hday1, hday2]
    exact hb q1 hq1 q2 hq2 (by rw [← hid1, ← hid2, heq])
  · intro id t d hj
    simp only [hn]
    have hold : id < s.db.nextScheduleID ∧ ∀ row ∈ s.db.schedules, row.ID = id → row.Day = d := by
      rcases hp id t d hj with h | ⟨r, hr, hrid, hrday⟩
      · exact hc id t d h
      · refine ⟨hrid ▸ (ha r hr).2, ?_⟩
        intro row hrow hid
        rw [← hrday]
        exact hb row hrow r hr (by rw [hid, hrid])
    refine ⟨hold.1, ?_⟩
    intro row' hrow' hid'
    obtain ⟨row, hrow, hid, hday⟩ := hk row' hrow'
    rw [hday]
    exact hold.2 row hrow (by rw [← hid, hid'])
  · intro row hrow row' hrow' heq
    obtain ⟨q, hq, hid, hday⟩ := hk row' hrow'
    rw [hday]
    exact hb q hq row hrow (by rw [← hid, heq])

theorem Inv_of_insert {s : Server} (hinv : s.Inv) (db' : DB) (uid : Int)
    (title day : String) (hv : validDay day = true)
    (hs : db'.schedules = s.db.schedules ++ [⟨s.db.nextScheduleID, uid, title, day⟩])
    (hn : db'.nextScheduleID = s.db.nextScheduleID + 1) :
    Server.Inv ⟨db', s.pending⟩ ∧
    (∀ row ∈ s.db.schedules, ∀ row' ∈ db'.schedules, row'.ID = row.ID → row'.Day = row.Day) := by
  obtain ⟨ha, hb, hc⟩ := hinv
  refine ⟨⟨?_, ?_, ?_⟩, ?_⟩
  · intro row hrow
    simp only [hs, hn, List.mem_append, List.mem_singleton] at hrow ⊢
    rcases hrow with h | h
    · have := ha row h
      exact ⟨this.1, by omega⟩
    · subst h
      exact ⟨hv, by simp⟩
  · intro r1 h1 r2 h2 heq
    simp only [hs, List.mem_append, List.mem_singleton] at h1 h2
    rcases h1 with h1 | h1 <;> rcases h2 with h2 | h2
    · exact hb r1 h1 r2 h2 heq
    · have := (ha r1 h1).2
      subst h2
      simp only at heq
      omega
    · have := (ha r2 h2).2
      subst h1
      simp only at heq
      omega
    · rw [h1, h2]
  · intro id t d hj
    have hold := hc id t d hj
    simp only [hn, hs, List.mem_append, List.mem_singleton]
    refine ⟨by omega, ?_⟩
    intro row hrow hid
    rcases hrow with h | h
    · exact hold.2 row h hid
    · have := hold.1
      subst h
      simp only at hid
      omega
  · intro row hrow row' hrow' heq
    simp only [hs, List.mem_append, List.mem_singleton] at hrow'
    rcases hrow' with h | h
    · exact hb row' h row hrow heq
    · have := (ha row hrow).2
      subst h
      simp only at heq
      omega

theorem DaysKept_refl (l : List Schedule) : DaysKept l l :=
  fun row h => ⟨row, h, rfl, rfl⟩

/-- One transition keeps the invariant and the day of every row that stays. -/
theorem Inv_step (parseAddress : String → Bool) {s : Server} (hinv : s.Inv) (e : Event) :
    (s.step parseAddress e).Inv ∧
    (∀ row ∈ s.db.schedules, ∀ row' ∈ (s.step parseAddress e).db.schedules,
      row'.ID = row.ID → row'.Day = row.Day) := by
  cases e with
  | request ep req flt =>
    obtain ⟨hdb, hjobs⟩ := handle_effect parseAddress ep s.db flt req
    simp only [Server.step]
    rcases hdb with ⟨hs, hn⟩ | ⟨uid, title, day, hv, hs, hn, hj⟩
    · apply Inv_of_DaysKept hinv
      · rw [hs]; exact DaysKept_refl _
      · exact hn
      · intro id t d hmem
        rcases List.mem_append.1 hmem with h | h
        · exact Or.inl h
        · exact Or.inr (hjobs id t d h)
    · rw [hj, List.append_nil]
      exact Inv_of_insert hinv _ uid title day hv hs hn
  | background i fail =>
    simp only [Server.step]
    cases hjob : s.pending.get? i with
    | none =>
      simp only
      exact Inv_of_DaysKept hinv s.db s.pending (DaysKept_refl _) rfl (fun _ _ _ h => Or.inl h)
    | some job =>
      simp only
      have hsub : ∀ j, j ∈ s.pending.eraseIdx i → j ∈ s.pending :=
        fun j hj => List.mem_of_mem_eraseIdx hj
      have hjm : job ∈ s.pending := List.get?_mem hjob
      cases job with
      | DeleteSchedule id =>
        apply Inv_of_DaysKept hinv
        · intro row' hrow'
          refine ⟨row', ?_, rfl, rfl⟩
          simp only [runJob, DeleteSchedule] at hrow'
          split at hrow'
          · exact hrow'
          · exact (List.mem_filter.1 hrow').1
        · simp only [runJob, DeleteSchedule]; split <;> rfl
        · intro id t d h; exact Or.inl (hsub _ h)
      | UpdateSchedule id title day =>
        have hc := hinv.2.2 id title day hjm
        apply Inv_of_DaysKept hinv
        · intro row' hrow'
          simp only [runJob, UpdateSchedule] at hrow'
          split at hrow'
          · exact ⟨row', hrow', rfl, rfl⟩
          · simp only [List.mem_map] at hrow'
            obtain ⟨row, hrow, hrw⟩ := hrow'
            refine ⟨row, hrow, ?_⟩
            by_cases hid : row.ID = id
            · rw [if_pos hid] at hrw
              subst hrw
              exact ⟨rfl, (hc.2 row hrow hid).symm⟩
            · rw [if_neg hid] at hrw
              subst hrw
              exact ⟨rfl, rfl⟩
        · simp only [runJob, UpdateSchedule]; split <;> rfl
        · intro id t d h; exact Or.inl (hsub _ h)

theorem Inv_init : Server.init.Inv := by
  refine ⟨?_, ?_, ?_⟩ <;> simp [Server.init, DB.empty]

theorem Inv_run (parseAddress : String → Bool) (events : List Event) :
    ∀ s : Server, s.Inv → (s.run parseAddress events).Inv := by
  induction events with
  | nil => intro s h; exact h
  | cons e es ih =>
    intro s h
    exact ih _ (Inv_step parseAddress h e).1

/-! ## The schema facts hold in every reachable store -/

theorem nodup_map_append_fresh {α : Type} (f : α → Int) (l : List α) (x : α) (n : Int)
    (hl : (l.map f).Nodup) (hlt : ∀ a ∈ l, f a < n) (hx : f x = n) :
    ((l ++ [x]).map f).Nodup := by
  rw [List.map_append, List.nodup_append]
  refine ⟨hl, by simp, ?_⟩
  intro a ha hb
  simp only [List.map_cons, List.map_nil, List.mem_singleton] at hb
  obtain ⟨y, hy, rfl⟩ := List.mem_map.1 ha
  have := hlt y hy
  omega

theorem CreateUser_WF (db : DB) (flt : Faults) (email : String) (hwf : db.WF) :
    (CreateUser db flt email).2.WF := by
  obtain ⟨h1, h2, h3, h4, h5, h6⟩ := hwf
  have hnew : DB.WF { db with users := db.users ++ [⟨db.nextUserID, email⟩],
                              nextUserID := db.nextUserID + 1 } := by
    refine ⟨h1, h2, ?_, ?_, h5, ?_⟩
    · intro u hu
      simp only [List.mem_append, List.mem_singleton] at hu
      rcases hu with hu | hu
      · have := h3 u hu
        exact ⟨this.1, by simp only; omega⟩
      · subst hu
        exact ⟨h6, by simp⟩
    · exact nodup_map_append_fresh _ _ _ db.nextUserID h4 (fun a ha => (h3 a ha).2) rfl
    · simp only; omega
  unfold CreateUser
  repeat' split
  all_goals first | exact ⟨h1, h2, h3, h4, h5, h6⟩ | exact hnew

theorem CreateSchedule_WF (db : DB) (flt : Faults) (userID : Int) (title day : String)
    (hwf : db.WF) : (CreateSchedule db flt userID title day).2.WF := by
  obtain ⟨h1, h2, h3, h4, h5, h6⟩ := hwf
  have hnew : DB.WF { db with
      schedules := db.schedules ++ [⟨db.nextScheduleID, userID, title, day⟩],
      nextScheduleID := db.nextScheduleID + 1 } := by
    refine ⟨?_, ?_, h3, h4, ?_, h6⟩
    · intro r hr
      simp only [List.mem_append, List.mem_singleton] at hr
      rcases hr with hr | hr
      · have := h1 r hr
        exact ⟨this.1, by simp only; omega⟩
      · subst hr
        exact ⟨h5, by simp⟩
    · exact nodup_map_append_fresh _ _ _ db.nextScheduleID h2 (fun a ha => (h1 a ha).2) rfl
    · simp only; omega
  unfold CreateSchedule
  repeat' split
  all_goals first | exact ⟨h1, h2, h3, h4, h5, h6⟩ | exact hnew

theorem handle_WF (parseAddress : String → Bool) (ep : Endpoint) (db : DB) (flt : Faults)
    (req : Request) (hwf : db.WF) : (handle parseAddress ep db flt req).db.WF := by
  cases ep
  · have h := CreateUser_WF db flt (req.bodyField "email") hwf
    simp only [handle, handleCheckin]
    repeat' split
    all_goals first | exact hwf | exact h
  · simp only [handle, handleGetSchedule]
    repeat' split
    all_goals exact hwf
  · simp only [handle, handlePostSchedule]
    repeat' split
    all_goals first | exact hwf | exact CreateSchedule_WF _ _ _ _ _ hwf
  · simp only [handle, handleDeleteSchedule]
    repeat' split
    all_goals exact hwf
  · simp only [handle, handlePatchSchedule]
    repeat' split
    all_goals exact hwf

theorem runJob_WF (db : DB) (fail : Bool) (job : Job) (hwf : db.WF) :
    (runJob db fail job).WF := by
  obtain ⟨h1, h2, h3, h4, h5, h6⟩ := hwf
  cases job with
  | DeleteSchedule id =>
    simp only [runJob, DeleteSchedule]
    split
    · exact ⟨h1, h2, h3, h4, h5, h6⟩
    · refine ⟨?_, ?_, h3, h4, h5, h6⟩
      · intro r hr
        exact h1 r (List.mem_filter.1 hr).1
      · exact List.Nodup.sublist (List.Sublist.map _ (List.filter_sublist _)) h2
  | UpdateSchedule id title day =>
    simp only [runJob, UpdateSchedule]
    split
    · exact ⟨h1, h2, h3, h4, h5, h6⟩
    · have hmap : (db.schedules.map (fun s =>
            if s.ID = id then { s with Title := title, Day := day } else s)).map
            (fun s => s.ID) = db.schedules.map (fun s => s.ID) := by
        rw [List.map_map]
        apply List.map_congr_left
        intro a _
        simp only [Function.comp]
        split <;> rfl
      refine ⟨?_, ?_, h3, h4, h5, h6⟩
      · intro r hr
        simp only [List.mem_map] at hr
        obtain ⟨a, ha, rfl⟩ := hr
        have := h1 a ha
        split <;> exact this
      · simp only [hmap]; exact h2

/-- Every store reached from the empty one satisfies the schema facts. -/
theorem WF_run (parseAddress : String → Bool) (events : List Event) :
    ∀ s : Server, s.db.WF → (s.run parseAddress events).db.WF := by
  induction events with
  | nil => intro s h; exact h
  | cons e es ih =>
    intro s h
    apply ih
    cases e with
    | request ep req flt => exact handle_WF parseAddress ep s.db flt req h
    | background i fail =>
      simp only [Server.step]
      cases hjob : s.pending.get? i with
      | none => exact h
      | some job => exact runJob_WF s.db fail job h

theorem WF_empty : DB.empty.WF := by decide

/-! ## C1: the day counts -/

theorem GetTotalSchedulesPerDays_sum (db : DB) (flt : Faults) (userId : Int)
    (hq : flt.queryRows = false)
    (hvalid : ∀ s ∈ db.schedules, s.UserID = userId → validDay s.Day = true) :
    ((GetTotalSchedulesPerDays db flt userId).map Prod.snd).sum =
      ((db.schedules.filter (fun s => decide (s.UserID = userId))).length : Int) := by
  rw [GetTotalSchedulesPerDays_eq db flt userId hq]
  have hsum := count_weekdays_sum (userDays db userId) (by
    intro d hd
    simp only [userDays, List.mem_map, List.mem_filter, decide_eq_true_eq] at hd
    obtain ⟨s, ⟨hs, hu⟩, rfl⟩ := hd
    exact hvalid s hs hu)
  have hlen : (userDays db userId).length =
      (db.schedules.filter (fun s => decide (s.UserID = userId))).length := by
    simp [userDays]
  simp only [weekdays, List.map, List.sum_cons, List.sum_nil, add_zero]
  rw [← hlen, ← hsum]
  push_cast
  ring

/-- C1 (amended). For every store, fault pattern and user id the result of
`GetTotalSchedulesPerDays` has exactly the keys monday, tuesday, wednesday, thursday,
friday and every value is at least 0.  When the count query does not fail and every
schedule of that user has a whitelisted day, the five values sum to the number of
schedules of that user; this is so in every store reached from the empty one through
the handlers and their background jobs.  With an accepted email of a resolved user and
no `day` parameter, this map is the data of the 200 answer of GET /schedule. -/
theorem GetTotalSchedulesPerDays_counts (db : DB) (flt : Faults) (userId : Int) :
    (GetTotalSchedulesPerDays db flt userId).map Prod.fst =
      ["monday", "tuesday", "wednesday", "thursday", "friday"] ∧
    (∀ kv ∈ GetTotalSchedulesPerDays db flt userId, 0 ≤ kv.2) ∧
    (flt.queryRows = false →
      (∀ s ∈ db.schedules, s.UserID = userId → validDay s.Day = true) →
      ((GetTotalSchedulesPerDays db flt userId).map Prod.snd).sum =
        ((db.schedules.filter (fun s => decide (s.UserID = userId))).length : Int)) ∧
    (∀ (parseAddress : String → Bool) (events : List Event), flt.queryRows = false →
      ((GetTotalSchedulesPerDays (Server.init.run parseAddress events).db flt userId).map
          Prod.snd).sum =
        (((Server.init.run parseAddress events).db.schedules.filter
          (fun s => decide (s.UserID = userId))).length : Int)) ∧
    (∀ (parseAddress : String → Bool) (req : Request) (u : User),
      req.Query "email" ≠ "" → parseAddress (req.Query "email") = true →
      GetUserDetails db flt (req.Query "email") = (u, none) → u.ID = userId →
      req.Query "day" = "" →
      (handleGetSchedule parseAddress db flt req).resp =
        success 200 (Data.counts (GetTotalSchedulesPerDays db flt userId))) := by
  refine ⟨?_, ?_, ?_, ?_, ?_⟩
  · cases hq : flt.queryRows
    · rw [GetTotalSchedulesPerDays_eq db flt userId hq]; simp [weekdays]
    · simp [GetTotalSchedulesPerDays, hq]
  · cases hq : flt.queryRows
    · rw [GetTotalSchedulesPerDays_eq db flt userId hq]
      intro kv hkv
      simp only [weekdays, List.map, List.mem_cons, List.mem_singleton] at hkv
      rcases hkv with h | h | h | h | h | h <;> first | (subst h; simp) | simp at h
    · intro kv hkv
      simp only [GetTotalSchedulesPerDays, hq, if_true, List.mem_cons,
        List.mem_singleton] at hkv
      rcases hkv with h | h | h | h | h | h <;> first | (subst h; simp) | simp at h
  · exact GetTotalSchedulesPerDays_sum db flt userId
  · intro parseAddress events hq
    have hinv := Inv_run parseAddress events Server.init Inv_init
    exact GetTotalSchedulesPerDays_sum _ flt userId hq (fun s hs _ => (hinv.1 s hs).1)
  · intro parseAddress req u hemail hparse huser hid hday
    subst hid
    simp [handleGetSchedule, hemail, hparse, huser, hday]

/-- C1, instance: the two schedules of user 1 in `dbSample` are counted. -/
theorem GetTotalSchedulesPerDays_counts_witness :
    ((GetTotalSchedulesPerDays dbSample noFaults 1).map Prod.snd).sum = 2 :=
  (GetTotalSchedulesPerDays_counts dbSample noFaults 1).2.2.1 rfl (by decide)

/-- C1 as stated fails: in a store whose only schedule of user 1 has day "sunday",
the five counts are all 0 and do not sum to that user's number of schedules; and when
the count query fails on `dbSample`, the counts are all 0 although user 1 has two
schedules. -/
theorem GetTotalSchedulesPerDays_sum_counterexample :
    (GetTotalSchedulesPerDays dbSunday noFaults 1 =
        [("monday", 0), ("tuesday", 0), ("wednesday", 0), ("thursday", 0), ("friday", 0)] ∧
      ((GetTotalSchedulesPerDays dbSunday noFaults 1).map Prod.snd).sum ≠
        ((dbSunday.schedules.filter (fun s => decide (s.UserID = 1))).length : Int)) ∧
    (((GetTotalSchedulesPerDays dbSample faultQueryRows 1).map Prod.snd).sum = 0 ∧
      ((dbSample.schedules.filter (fun s => decide (s.UserID = 1))).length : Int) = 2) := by
  decide

/-! ## C2: the day whitelist of POST /schedule -/

/-- C2 (amended). In POST /schedule with an accepted email that resolves to a user and
a non-empty title: when the day is one of monday, tuesday, wednesday, thursday, friday
the status is 201, and when the INSERT does not fail one row with the user's id, the
title and the day is appended to the schedules; for every other day string the status
is 400, the store is unchanged and nothing is dispatched. -/
theorem handlePostSchedule_day (parseAddress : String → Bool) (db : DB) (flt : Faults)
    (req : Request) (u : User)
    (hemail : req.Query "email" ≠ "") (hparse : parseAddress (req.Query "email") = true)
    (huser : GetUserDetails db flt (req.Query "email") = (u, none))
    (htitle : req.bodyField "title" ≠ "") :
    (req.bodyField "day" ∈ ["monday", "tuesday", "wednesday", "thursday", "friday"] →
      (handlePostSchedule parseAddress db flt req).resp.code = 201 ∧
      (flt.prepareInsert = false → flt.execInsert = false →
        (handlePostSchedule parseAddress db flt req).db.schedules =
          db.schedules ++
            [⟨db.nextScheduleID, u.ID, req.bodyField "title", req.bodyField "day"⟩] ∧
        (handlePostSchedule parseAddress db flt req).db.users = db.users)) ∧
    (req.bodyField "day" ∉ ["monday", "tuesday", "wednesday", "thursday", "friday"] →
      (handlePostSchedule parseAddress db flt req).resp.code = 400 ∧
      (handlePostSchedule parseAddress db flt req).db = db ∧
      (handlePostSchedule parseAddress db flt req).jobs = []) := by
  constructor
  · intro hday
    have hv : validDay (req.bodyField "day") = true := by
      rw [validDay_iff]; simpa using hday
    have hne : req.bodyField "day" ≠ "" := by
      intro h; rw [h] at hday; simp at hday
    refine ⟨by simp [handlePostSchedule, hemail, hparse, htitle, hne, hv, huser, success], ?_⟩
    intro hp he
    cases hl : flt.lastInsertId <;>
      simp [handlePostSchedule, hemail, hparse, htitle, hne, hv, huser, CreateSchedule,
        hp, he, hl]
  · intro hday
    have hv : validDay (req.bodyField "day") = false := by
      rw [Bool.eq_false_iff, Ne, validDay_iff]; simpa using hday
    by_cases hne : req.bodyField "day" = ""
    · simp [handlePostSchedule, hemail, hparse, htitle, hne, badRequest]
    · simp [handlePostSchedule, hemail, hparse, htitle, hne, hv, badRequest]

/-- C2, instance: user 2 of `dbSample` creates a Tuesday schedule. -/
theorem handlePostSchedule_day_witness :
    (handlePostSchedule sampleParseAddress dbSample noFaults
      ⟨[("email", "c@d.org")], [("title", "Chess"), ("day", "tuesday")]⟩).resp.code = 201 :=
  ((handlePostSchedule_day sampleParseAddress dbSample noFaults
      ⟨[("email", "c@d.org")], [("title", "Chess"), ("day", "tuesday")]⟩ ⟨2, "c@d.org"⟩
      (by decide) (by decide) (by decide) (by decide)).1 (by decide)).1

/-- C2 as stated fails: user 1 of `dbSample` posts a non-empty title with day
"tuesday" while the `Exec` of the INSERT fails; the user lookup succeeds, the answer
is 201, and no schedule is created: the store is `dbSample` as before. -/
theorem handlePostSchedule_created_counterexample :
    sampleParseAddress "a@b.com" = true ∧
    GetUserDetails dbSample faultExecInsert "a@b.com" = (⟨1, "a@b.com"⟩, none) ∧
    (handlePostSchedule sampleParseAddress dbSample faultExecInsert
      ⟨[("email", "a@b.com")], [("title", "Chess"), ("day", "tuesday")]⟩).resp.code = 201 ∧
    (handlePostSchedule sampleParseAddress dbSample faultExecInsert
      ⟨[("email", "a@b.com")], [("title", "Chess"), ("day", "tuesday")]⟩).db = dbSample ∧
    (handlePostSchedule sampleParseAddress dbSample faultExecInsert
      ⟨[("email", "a@b.com")], [("title", "Chess"), ("day", "tuesday")]⟩).jobs = [] := by
  decide

/-! ## C3: ownership -/

/-- C3. In DELETE /schedule and PATCH /schedule, when the accepted email resolves to a
user and the id names a stored schedule (primary keys as in `DB.WF`) whose user_id is
not that user's id, the status is 403, the store is unchanged and no background job is
dispatched, for every request body. -/
theorem forbidden_other_owner (parseAddress : String → Bool) (db : DB) (flt : Faults)
    (req : Request) (u : User) (s : Schedule) (hwf : db.WF)
    (hemail : req.Query "email" ≠ "") (hparse : parseAddress (req.Query "email") = true)
    (huser : GetUserDetails db flt (req.Query "email") = (u, none))
    (hsched : GetScheduleDetails db flt (req.QueryInt "id") = (s, none))
    (hown : s.UserID ≠ u.ID) :
    ((handleDeleteSchedule parseAddress db flt req).resp.code = 403 ∧
      (handleDeleteSchedule parseAddress db flt req).db = db ∧
      (handleDeleteSchedule parseAddress db flt req).jobs = []) ∧
    ((handlePatchSchedule parseAddress db flt req).resp.code = 403 ∧
      (handlePatchSchedule parseAddress db flt req).db = db ∧
      (handlePatchSchedule parseAddress db flt req).jobs = []) := by
  have hmem := selectScheduleByID_some (GetScheduleDetails_ok hsched).2
  have hpos : s.ID ≠ 0 := by
    have := (hwf.1 s hmem.1).1
    omega
  have hown2 : u.ID ≠ s.UserID := fun h => hown h.symm
  constructor
  · simp [handleDeleteSchedule, hemail, hparse, huser, hsched, hown2, forbidden]
  · simp [handlePatchSchedule, hemail, hparse, huser, hsched, hown, hpos, forbidden]

/-- C3, instance: user 2 of `dbSample` may not delete or retitle schedule 1 of user 1. -/
theorem forbidden_other_owner_witness :
    (handleDeleteSchedule sampleParseAddress dbSample noFaults
      ⟨[("email", "c@d.org"), ("id", "1")], [("title", "Mine")]⟩).resp.code = 403 :=
  (forbidden_other_owner sampleParseAddress dbSample noFaults
      ⟨[("email", "c@d.org"), ("id", "1")], [("title", "Mine")]⟩ ⟨2, "c@d.org"⟩
      ⟨1, 1, "Math", "monday"⟩ (by decide) (by decide) (by decide) (by decide) (by decide)
      (by decide)).1.1

/-! ## C4: unknown schedule id -/

/-- C4. In DELETE /schedule and PATCH /schedule, when the accepted email resolves to a
user and no schedule row has the requested id, the status is 404 with the message
"Schedule with ID <id> Not Found", the store is unchanged and nothing is dispatched.
An id parameter that is missing or not an integer is read as 0, which names no row of
any store reached from the empty one. -/
theorem notFound_unknown_schedule (parseAddress : String → Bool) (db : DB) (flt : Faults)
    (req : Request) (u : User)
    (hemail : req.Query "email" ≠ "") (hparse : parseAddress (req.Query "email") = true)
    (huser : GetUserDetails db flt (req.Query "email") = (u, none))
    (hnone : selectScheduleByID db (req.QueryInt "id") = none) :
    ((handleDeleteSchedule parseAddress db flt req).resp.code = 404 ∧
      (handleDeleteSchedule parseAddress db flt req).resp.message =
        "Schedule with ID " ++ toString (req.QueryInt "id") ++ " Not Found" ∧
      (handleDeleteSchedule parseAddress db flt req).db = db ∧
      (handleDeleteSchedule parseAddress db flt req).jobs = []) ∧
    ((handlePatchSchedule parseAddress db flt req).resp.code = 404 ∧
      (handlePatchSchedule parseAddress db flt req).resp.message =
        "Schedule with ID " ++ toString (req.QueryInt "id") ++ " Not Found" ∧
      (handlePatchSchedule parseAddress db flt req).db = db ∧
      (handlePatchSchedule parseAddress db flt req).jobs = []) ∧
    (Atoi (req.Query "id") = none → req.QueryInt "id" = 0) ∧
    (∀ events : List Event,
      selectScheduleByID (Server.init.run parseAddress events).db 0 = none) := by
  have hs : ∃ e, GetScheduleDetails db flt (req.QueryInt "id") = (Schedule.zero, some e) := by
    unfold GetScheduleDetails
    cases hf : flt.selectSchedule
    · exact ⟨SqlError.ErrNoRows, by simp [hnone]⟩
    · exact ⟨SqlError.Failure, by simp⟩
  obtain ⟨e, he⟩ := hs
  refine ⟨?_, ?_, ?_, ?_⟩
  · simp [handleDeleteSchedule, hemail, hparse, huser, he, notFound, scheduleNotFoundMessage]
  · simp [handlePatchSchedule, hemail, hparse, huser, he, notFound, scheduleNotFoundMessage,
      Schedule.zero]
  · intro h; simp [Request.QueryInt, h]
  · intro events
    exact selectScheduleByID_zero (WF_run parseAddress events Server.init WF_empty)

/-- C4, instance: user 1 of `dbSample` sends DELETE without an id parameter. -/
theorem notFound_unknown_schedule_witness :
    (handleDeleteSchedule sampleParseAddress dbSample noFaults
      ⟨[("email", "a@b.com")], []⟩).resp.message = "Schedule with ID 0 Not Found" :=
  (notFound_unknown_schedule sampleParseAddress dbSample noFaults
      ⟨[("email", "a@b.com")], []⟩ ⟨1, "a@b.com"⟩ (by decide) (by decide) (by decide)
      (by decide)).1.2.1

/-! ## C5: find-or-create -/

/-- C5. With no store failure, two consecutive `CreateUser` calls with the same email
both succeed and return the same user, whose email is the given one; the second call
leaves the store unchanged, and the first inserts at most the one row it returns.
The check-in handler, run twice on the same request, gives the same response twice and
the second run leaves the store unchanged. -/
theorem CreateUser_idempotent (db : DB) (email : String) :
    (CreateUser db noFaults email).1.2 = none ∧
    (CreateUser (CreateUser db noFaults email).2 noFaults email).1 =
      (CreateUser db noFaults email).1 ∧
    (CreateUser db noFaults email).1.1.Email = email ∧
    (CreateUser (CreateUser db noFaults email).2 noFaults email).2 =
      (CreateUser db noFaults email).2 ∧
    ((CreateUser db noFaults email).2.users = db.users ∨
      (CreateUser db noFaults email).2.users =
        db.users ++ [(CreateUser db noFaults email).1.1]) ∧
    (∀ (parseAddress : String → Bool) (req : Request),
      (handleCheckin parseAddress (handleCheckin parseAddress db noFaults req).db
          noFaults req).resp = (handleCheckin parseAddress db noFaults req).resp ∧
      (handleCheckin parseAddress (handleCheckin parseAddress db noFaults req).db
          noFaults req).db = (handleCheckin parseAddress db noFaults req).db) := by
  have key : ∀ (db : DB) (email : String),
      CreateUser (CreateUser db noFaults email).2 noFaults email =
        ((CreateUser db noFaults email).1, (CreateUser db noFaults email).2) := by
    intro db email
    cases h : selectUserByEmail db email with
    | some u =>
      have h1 : CreateUser db noFaults email = ((u, none), db) := by
        rw [CreateUser_noFaults, h]
      rw [h1]
      exact h1
    | none =>
      have h1 := CreateUser_noFaults db email
      rw [h] at h1
      rw [h1]
      have h2 : selectUserByEmail
          { db with users := db.users ++ [⟨db.nextUserID, email⟩],
                    nextUserID := db.nextUserID + 1 } email =
          some ⟨db.nextUserID, email⟩ := by
        unfold selectUserByEmail at h ⊢
        simp [List.find?_append, h]
      rw [CreateUser_noFaults, h2]
  refine ⟨?_, ?_, ?_, ?_, ?_, ?_⟩
  · rw [CreateUser_noFaults]; cases h : selectUserByEmail db email <;> simp
  · rw [key]
  · rw [CreateUser_noFaults]
    cases h : selectUserByEmail db email with
    | some u => exact (selectUserByEmail_some h).2
    | none => rfl
  · rw [key]
  · rw [CreateUser_noFaults]
    cases h : selectUserByEmail db email <;> simp
  · intro parseAddress req
    unfold handleCheckin
    by_cases h1 : req.bodyField "email" = ""
    · simp [h1]
    · cases h2 : parseAddress (req.bodyField "email")
      · simp [h1, h2]
      · simp [h1, h2, key]

/-- C5, instance: a new address checks in twice on `dbSample` and gets user 3 twice. -/
theorem CreateUser_idempotent_witness :
    (CreateUser (CreateUser dbSample noFaults "e@f.net").2 noFaults "e@f.net").1 =
      (⟨3, "e@f.net"⟩, none) := by
  rw [(CreateUser_idempotent dbSample "e@f.net").2.1]
  decide

/-! ## C6: where the 400 answers are produced -/

/-- C6 (amended). Whenever a handler answers 400 the store is unchanged and nothing is
dispatched, so no insert, update or delete has happened.  In check-in, POST /schedule
and DELETE /schedule no repository call has been made at all.  In GET /schedule the
only 400 after a repository call is "Day is invalid", after the user lookup; in
PATCH /schedule it is "Title is required", after the user and schedule lookups. -/
theorem badRequest_store_access (parseAddress : String → Bool) (ep : Endpoint) (db : DB)
    (flt : Faults) (req : Request)
    (h400 : (handle parseAddress ep db flt req).resp.code = 400) :
    (handle parseAddress ep db flt req).db = db ∧
    (handle parseAddress ep db flt req).jobs = [] ∧
    ((handle parseAddress ep db flt req).trace = [] ∨
      (ep = Endpoint.getSchedule ∧
        (handle parseAddress ep db flt req).resp.message = "Day is invalid" ∧
        (handle parseAddress ep db flt req).trace =
          [StoreOp.GetUserDetails (req.Query "email")]) ∨
      (ep = Endpoint.patchSchedule ∧
        (handle parseAddress ep db flt req).resp.message = "Title is required" ∧
        (handle parseAddress ep db flt req).trace =
          [StoreOp.GetUserDetails (req.Query "email"),
           StoreOp.GetScheduleDetails (req.QueryInt "id")])) := by
  revert h400
  cases ep
  · simp only [handle, handleCheckin]
    repeat' split
    all_goals simp [badRequest, success]
  · simp only [handle, handleGetSchedule]
    repeat' split
    all_goals simp [badRequest, success, notFound, internalError]
  · simp only [handle, handlePostSchedule]
    repeat' split
    all_goals simp [badRequest, success, notFound, internalError]
  · simp only [handle, handleDeleteSchedule]
    repeat' split
    all_goals simp [badRequest, success, notFound, internalError, forbidden]
  · simp only [handle, handlePatchSchedule]
    repeat' split
    all_goals simp [badRequest, success, notFound, internalError, forbidden]

/-- C6, instance: POST /schedule with an empty title answers 400 and leaves
`dbSample` as it was. -/
theorem badRequest_store_access_witness :
    (handle sampleParseAddress Endpoint.postSchedule dbSample noFaults
      ⟨[("email", "a@b.com")], [("title", ""), ("day", "monday")]⟩).db = dbSample :=
  (badRequest_store_access sampleParseAddress Endpoint.postSchedule dbSample noFaults
      ⟨[("email", "a@b.com")], [("title", ""), ("day", "monday")]⟩ (by decide)).1

/-- C6 as stated fails: GET /schedule with day "sunday" answers 400 after the user
lookup, and PATCH /schedule with an empty title answers 400 after the user lookup and
the schedule lookup. -/
theorem badRequest_after_lookup_counterexample :
    ((handleGetSchedule sampleParseAddress dbSample noFaults
        ⟨[("email", "a@b.com"), ("day", "sunday")], []⟩).resp.code = 400 ∧
      (handleGetSchedule sampleParseAddress dbSample noFaults
        ⟨[("email", "a@b.com"), ("day", "sunday")], []⟩).trace =
          [StoreOp.GetUserDetails "a@b.com"]) ∧
    ((handlePatchSchedule sampleParseAddress dbSample noFaults
        ⟨[("email", "a@b.com"), ("id", "1")], [("title", "")]⟩).resp.code = 400 ∧
      (handlePatchSchedule sampleParseAddress dbSample noFaults
        ⟨[("email", "a@b.com"), ("id", "1")], [("title", "")]⟩).trace =
          [StoreOp.GetUserDetails "a@b.com", StoreOp.GetScheduleDetails 1]) := by
  decide

/-! ## C7: store failures -/

/-- C7 (amended). In GET, POST, DELETE and PATCH /schedule, for a request that passes
the validation done before the user lookup, a user lookup that fails with an error
other than the no-rows signal is answered with status 500; the store is unchanged and
nothing is dispatched. -/
theorem internalError_user_lookup (parseAddress : String → Bool) (db : DB) (flt : Faults)
    (req : Request)
    (hemail : req.Query "email" ≠ "") (hparse : parseAddress (req.Query "email") = true)
    (hfail : (GetUserDetails db flt (req.Query "email")).2 = some SqlError.Failure) :
    (handleGetSchedule parseAddress db flt req).resp.code = 500 ∧
    (handleDeleteSchedule parseAddress db flt req).resp.code = 500 ∧
    (handlePatchSchedule parseAddress db flt req).resp.code = 500 ∧
    (req.bodyField "title" ≠ "" → validDay (req.bodyField "day") = true →
      (handlePostSchedule parseAddress db flt req).resp.code = 500) ∧
    (∀ ep : Endpoint, ep ≠ Endpoint.postCheckin →
      (handle parseAddress ep db flt req).resp.code = 500 →
      (handle parseAddress ep db flt req).db = db ∧
      (handle parseAddress ep db flt req).jobs = []) := by
  rcases hU : GetUserDetails db flt (req.Query "email") with ⟨user, e⟩
  rw [hU] at hfail
  simp only at hfail
  subst hfail
  refine ⟨?_, ?_, ?_, ?_, ?_⟩
  · simp [handleGetSchedule, hemail, hparse, hU, internalError]
  · simp [handleDeleteSchedule, hemail, hparse, hU, internalError]
  · simp [handlePatchSchedule, hemail, hparse, hU, internalError]
  · intro ht hv
    have hne : req.bodyField "day" ≠ "" := by
      intro h; rw [h] at hv; revert hv; decide
    simp [handlePostSchedule, hemail, hparse, hU, internalError, ht, hv, hne]
  · intro ep hep
    cases ep
    · exact absurd rfl hep
    · simp [handle, handleGetSchedule, hemail, hparse, hU, internalError]
    · simp only [handle, handlePostSchedule]
      repeat' split
      all_goals simp_all [badRequest, success, notFound, internalError]
    · simp [handle, handleDeleteSchedule, hemail, hparse, hU, internalError]
    · simp [handle, handlePatchSchedule, hemail, hparse, hU, internalError]

/-- C7, instance: with a failing SELECT on `users`, DELETE /schedule answers 500. -/
theorem internalError_user_lookup_witness :
    (handleDeleteSchedule sampleParseAddress dbSample faultSelectUser
      ⟨[("email", "a@b.com"), ("id", "1")], []⟩).resp.code = 500 :=
  (internalError_user_lookup sampleParseAddress dbSample faultSelectUser
      ⟨[("email", "a@b.com"), ("id", "1")], []⟩ (by decide) (by decide) (by decide)).2.1

/-- C7 as stated fails: a failed find-or-create in check-in is answered 200, a failed
schedule lookup in DELETE and in PATCH is answered 404, and a failed INSERT in
POST /schedule is answered 201 with no row added. -/
theorem store_failure_not_500_counterexample :
    ((CreateUser dbSample faultSelectUser "a@b.com").1.2 = some SqlError.Failure ∧
      (handleCheckin sampleParseAddress dbSample faultSelectUser
        ⟨[], [("email", "a@b.com")]⟩).resp.code = 200) ∧
    ((GetScheduleDetails dbSample faultSelectSchedule 1).2 = some SqlError.Failure ∧
      (handleDeleteSchedule sampleParseAddress dbSample faultSelectSchedule
        ⟨[("email", "a@b.com"), ("id", "1")], []⟩).resp.code = 404 ∧
      (handlePatchSchedule sampleParseAddress dbSample faultSelectSchedule
        ⟨[("email", "a@b.com"), ("id", "1")], [("title", "Algebra")]⟩).resp.code = 404) ∧
    ((CreateSchedule dbSample faultExecInsert 1 "Chess" "tuesday").1.2 =
        some SqlError.Failure ∧
      (handlePostSchedule sampleParseAddress dbSample faultExecInsert
        ⟨[("email", "a@b.com")], [("title", "Chess"), ("day", "tuesday")]⟩).resp.code = 201 ∧
      (handlePostSchedule sampleParseAddress dbSample faultExecInsert
        ⟨[("email", "a@b.com")], [("title", "Chess"), ("day", "tuesday")]⟩).db = dbSample) := by
  decide

/-! ## C8: the title update -/

/-- C8. In PATCH /schedule, when the accepted email resolves to the user who owns the
stored schedule named by the id (primary keys as in `DB.WF`) and the body title is not
empty: the status is 201, the data is the fetched schedule with the title replaced, the
handler itself leaves the store unchanged and dispatches exactly one job,
`UpdateSchedule` with the fetched id, the request title and the fetched day.  When
that job runs on this store without failing, the row with that id gets the new title
and nothing else changes: every other row, and this row's id, user_id and day, stay
the same, as do the users and the counters. -/
theorem handlePatchSchedule_owner (parseAddress : String → Bool) (db : DB) (flt : Faults)
    (req : Request) (u : User) (s : Schedule) (hwf : db.WF)
    (hemail : req.Query "email" ≠ "") (hparse : parseAddress (req.Query "email") = true)
    (huser : GetUserDetails db flt (req.Query "email") = (u, none))
    (hsched : GetScheduleDetails db flt (req.QueryInt "id") = (s, none))
    (hown : s.UserID = u.ID) (htitle : req.bodyField "title" ≠ "") :
    (handlePatchSchedule parseAddress db flt req).resp.code = 201 ∧
    (handlePatchSchedule parseAddress db flt req).resp.data =
      some (Data.schedule ⟨s.ID, s.UserID, req.bodyField "title", s.Day⟩) ∧
    (handlePatchSchedule parseAddress db flt req).db = db ∧
    (handlePatchSchedule parseAddress db flt req).jobs =
      [Job.UpdateSchedule s.ID (req.bodyField "title") s.Day] ∧
    s.ID = req.QueryInt "id" ∧ s ∈ db.schedules ∧
    runJob db false (Job.UpdateSchedule s.ID (req.bodyField "title") s.Day) =
      { db with schedules := db.schedules.map (fun x =>
          if x.ID = s.ID then ⟨x.ID, x.UserID, req.bodyField "title", x.Day⟩ else x) } := by
  have hmem := selectScheduleByID_some (GetScheduleDetails_ok hsched).2
  have hpos : s.ID ≠ 0 := by
    have := (hwf.1 s hmem.1).1
    omega
  refine ⟨?_, ?_, ?_, ?_, hmem.2, hmem.1, ?_⟩
  · simp [handlePatchSchedule, hemail, hparse, huser, hsched, hown, hpos, htitle, success]
  · simp [handlePatchSchedule, hemail, hparse, huser, hsched, hown, hpos, htitle, success]
  · simp [handlePatchSchedule, hemail, hparse, huser, hsched, hown, hpos, htitle]
  · simp [handlePatchSchedule, hemail, hparse, huser, hsched, hown, hpos, htitle]
  · simp only [runJob, UpdateSchedule, Bool.false_eq_true, if_false]
    congr 1
    apply List.map_congr_left
    intro x hx
    by_cases hxs : x.ID = s.ID
    · have := eq_of_ID_eq hwf hx hmem.1 hxs
      subst this
      simp
    · simp [hxs]

/-- C8, instance: user 1 of `dbSample` retitles the own schedule 2. -/
theorem handlePatchSchedule_owner_witness :
    (handlePatchSchedule sampleParseAddress dbSample noFaults
      ⟨[("email", "a@b.com"), ("id", "2")], [("title", "Music")]⟩).resp.data =
      some (Data.schedule ⟨2, 1, "Music", "friday"⟩) :=
  (handlePatchSchedule_owner sampleParseAddress dbSample noFaults
      ⟨[("email", "a@b.com"), ("id", "2")], [("title", "Music")]⟩ ⟨1, "a@b.com"⟩
      ⟨2, 1, "Art", "friday"⟩ (by decide) (by decide) (by decide) (by decide) (by decide)
      (by decide) (by decide)).2.1

/-! ## C9: validation order of POST /schedule -/

/-- C9. POST /schedule checks, in this order, the email, the title, that a day is
given, that the day is whitelisted, and only then looks the user up.  With an accepted
email: an empty title gives 400 "Title is required" whatever the day and the store; a
non-empty title with an empty day gives 400 "Day is required"; a non-empty title with
a non-empty day outside the whitelist gives 400 "Day is invalid"; a 404 answer has
message "Email is not found" and occurs only when title and day passed and the user
lookup reported no rows. -/
theorem handlePostSchedule_order (parseAddress : String → Bool) (db : DB) (flt : Faults)
    (req : Request)
    (hemail : req.Query "email" ≠ "") (hparse : parseAddress (req.Query "email") = true) :
    (req.bodyField "title" = "" →
      (handlePostSchedule parseAddress db flt req).resp.code = 400 ∧
      (handlePostSchedule parseAddress db flt req).resp.message = "Title is required") ∧
    (req.bodyField "title" ≠ "" → req.bodyField "day" = "" →
      (handlePostSchedule parseAddress db flt req).resp.code = 400 ∧
      (handlePostSchedule parseAddress db flt req).resp.message = "Day is required") ∧
    (req.bodyField "title" ≠ "" → req.bodyField "day" ≠ "" →
      req.bodyField "day" ∉ ["monday", "tuesday", "wednesday", "thursday", "friday"] →
      (handlePostSchedule parseAddress db flt req).resp.code = 400 ∧
      (handlePostSchedule parseAddress db flt req).resp.message = "Day is invalid") ∧
    ((handlePostSchedule parseAddress db flt req).resp.code = 404 →
      req.bodyField "title" ≠ "" ∧ req.bodyField "day" ≠ "" ∧
      req.bodyField "day" ∈ ["monday", "tuesday", "wednesday", "thursday", "friday"] ∧
      (GetUserDetails db flt (req.Query "email")).2 = some SqlError.ErrNoRows ∧
      (handlePostSchedule parseAddress db flt req).resp.message = "Email is not found") ∧
    (req.bodyField "title" ≠ "" →
      req.bodyField "day" ∈ ["monday", "tuesday", "wednesday", "thursday", "friday"] →
      (GetUserDetails db flt (req.Query "email")).2 = some SqlError.ErrNoRows →
      (handlePostSchedule parseAddress db flt req).resp.code = 404 ∧
      (handlePostSchedule parseAddress db flt req).resp.message = "Email is not found") := by
  have hmemv : ∀ d : String,
      d ∈ ["monday", "tuesday", "wednesday", "thursday", "friday"] ↔ validDay d = true := by
    intro d; rw [validDay_iff]; simp
  refine ⟨?_, ?_, ?_, ?_, ?_⟩
  · intro ht
    simp [handlePostSchedule, hemail, hparse, ht, badRequest]
  · intro ht hd
    simp [handlePostSchedule, hemail, hparse, ht, hd, badRequest]
  · intro ht hd hv
    rw [hmemv] at hv
    simp [handlePostSchedule, hemail, hparse, ht, hd, hv, badRequest]
  · rw [hmemv]
    simp only [handlePostSchedule]
    repeat' split
    all_goals simp_all [badRequest, success, notFound, internalError]
  · intro ht hv hU
    have hne : req.bodyField "day" ≠ "" := by
      intro h; rw [h] at hv; simp at hv
    rw [hmemv] at hv
    rcases hG : GetUserDetails db flt (req.Query "email") with ⟨user, e⟩
    rw [hG] at hU
    simp only at hU
    subst hU
    simp [handlePostSchedule, hemail, hparse, ht, hne, hv, hG, notFound]

/-- C9, instance: the example of the specification, an empty title with day monday. -/
theorem handlePostSchedule_order_witness :
    (handlePostSchedule sampleParseAddress dbSample noFaults
      ⟨[("email", "a@b.com")], [("title", ""), ("day", "monday")]⟩).resp.message =
      "Title is required" :=
  ((handlePostSchedule_order sampleParseAddress dbSample noFaults
      ⟨[("email", "a@b.com")], [("title", ""), ("day", "monday")]⟩ (by decide)
      (by decide)).1 (by decide)).2

/-! ## C10: the day stays in the whitelist -/

/-- C10. After any sequence of requests to the five handlers and runs of the
background jobs they dispatched, starting from the empty store, every schedule row has
a day among monday, tuesday, wednesday, thursday, friday.  From such a state, whatever
happens next, a row that is still stored under the same id has the same day: update
and delete never change a day; and a row that POST /schedule adds to any store has a
whitelisted day. -/
theorem day_closed_enumeration (parseAddress : String → Bool) (events : List Event) :
    (∀ row ∈ (Server.init.run parseAddress events).db.schedules,
      row.Day ∈ ["monday", "tuesday", "wednesday", "thursday", "friday"]) ∧
    (∀ e : Event, ∀ row ∈ (Server.init.run parseAddress events).db.schedules,
      ∀ row' ∈ ((Server.init.run parseAddress events).step parseAddress e).db.schedules,
        row'.ID = row.ID → row'.Day = row.Day) ∧
    (∀ (db : DB) (flt : Faults) (req : Request),
      ∀ row ∈ (handlePostSchedule parseAddress db flt req).db.schedules,
        row ∈ db.schedules ∨
          row.Day ∈ ["monday", "tuesday", "wednesday", "thursday", "friday"]) := by
  have hinv := Inv_run parseAddress events Server.init Inv_init
  have hmemv : ∀ d : String,
      d ∈ ["monday", "tuesday", "wednesday", "thursday", "friday"] ↔ validDay d = true := by
    intro d; rw [validDay_iff]; simp
  refine ⟨?_, ?_, ?_⟩
  · intro row hrow
    rw [hmemv]
    exact (hinv.1 row hrow).1
  · intro e
    exact (Inv_step parseAddress hinv e).2
  · intro db flt req row hrow
    obtain ⟨hdb, _⟩ := handle_effect parseAddress Endpoint.postSchedule db flt req
    simp only [handle] at hdb
    rcases hdb with ⟨hs, _⟩ | ⟨uid, title, day, hv, hs, _, _⟩
    · left; rw [← hs]; exact hrow
    · rw [hs] at hrow
      rcases List.mem_append.1 hrow with h | h
      · exact Or.inl h
      · right
        rw [List.mem_singleton] at h
        subst h
        exact (hmemv _).2 hv

/-- C10, instance: after the run `sampleEvents` every stored day is whitelisted. -/
theorem day_closed_enumeration_witness :
    ∀ row ∈ (Server.init.run sampleParseAddress sampleEvents).db.schedules,
      row.Day ∈ ["monday", "tuesday", "wednesday", "thursday", "friday"] :=
  (day_closed_enumeration sampleParseAddress sampleEvents).1

end GetJadwal
